import Mathlib

/-!
Verification of the software rasterization pipeline of the Space Travel
renderer (src/main.rs, src/triangle.rs, src/shaders.rs, src/obj.rs).

Embedding conventions.
* Rust `f32` arithmetic is idealized as exact rational arithmetic (`ℚ`).
  All arithmetic the rasterizer performs (`+ - * /`, `abs`, `floor`,
  `ceil`, comparisons) is available exactly on `ℚ`, so the rasterizer
  embedding is executable.
* Transcendental primitives of the shader layer (`sin`, `sqrt`, `powf`,
  `atan2`) have no computable exact counterpart on `ℚ`; they are passed
  as explicit function parameters (see `Prims`), so every shader is
  modelled as a function of those primitives with its full control and
  arithmetic structure translated from the source.
* Machine loops become structural recursion or list combinators.
-/

namespace SpaceTravel

/-- A 2-component vector of rationals (nalgebra `Vec2` with `f32` idealized as `ℚ`). -/
structure Vec2 where
  x : ℚ
  y : ℚ
  deriving DecidableEq

/-- A 3-component vector of rationals (nalgebra `Vec3` with `f32` idealized as `ℚ`). -/
@[ext]
structure Vec3 where
  x : ℚ
  y : ℚ
  z : ℚ
  deriving DecidableEq

/-- A 4-component homogeneous vector (nalgebra `Vec4`). -/
@[ext]
structure Vec4 where
  x : ℚ
  y : ℚ
  z : ℚ
  w : ℚ
  deriving DecidableEq

/-- Componentwise addition of `Vec3` (nalgebra vector `+`). -/
def addV (a b : Vec3) : Vec3 := ⟨a.x + b.x, a.y + b.y, a.z + b.z⟩

/-- Componentwise subtraction of `Vec3` (nalgebra vector `-`). -/
def subV (a b : Vec3) : Vec3 := ⟨a.x - b.x, a.y - b.y, a.z - b.z⟩

/-- Scaling a `Vec3` by a scalar on the right (nalgebra `v * s`). -/
def smulV (a : Vec3) (s : ℚ) : Vec3 := ⟨a.x * s, a.y * s, a.z * s⟩

instance : Add Vec3 := ⟨addV⟩
instance : Sub Vec3 := ⟨subV⟩
instance : HMul Vec3 ℚ Vec3 := ⟨smulV⟩

theorem Vec3.add_def (a b : Vec3) : a + b = ⟨a.x + b.x, a.y + b.y, a.z + b.z⟩ := rfl

theorem Vec3.sub_def (a b : Vec3) : a - b = ⟨a.x - b.x, a.y - b.y, a.z - b.z⟩ := rfl

theorem Vec3.smul_def (a : Vec3) (s : ℚ) : a * s = ⟨a.x * s, a.y * s, a.z * s⟩ := rfl

/-- Dot product of two `Vec3` (nalgebra `dot`). -/
def dotV (a b : Vec3) : ℚ := a.x * b.x + a.y * b.y + a.z * b.z

/-- Componentwise product (nalgebra `component_mul`). -/
def componentMulV (a b : Vec3) : Vec3 := ⟨a.x * b.x, a.y * b.y, a.z * b.z⟩

/-- Componentwise map (nalgebra `Vec3::map`). -/
def mapV (f : ℚ → ℚ) (a : Vec3) : Vec3 := ⟨f a.x, f a.y, f a.z⟩

/-- Linear interpolation of vectors, `a.lerp(&b, t) = a + (b - a) * t`
componentwise (nalgebra `Vector3::lerp`). -/
def lerpV (a b : Vec3) (t : ℚ) : Vec3 := a + (b - a) * t

/-- Packed 8-bit RGB color. Modelled from the spec: `color.rs` is not in
`src/`; per spec section 3 a color is a packed-RGB value, and
`triangle.rs` constructs it by `Color::new(r, g, b)` from three channel
values. -/
structure Color where
  r : ℕ
  g : ℕ
  b : ℕ
  deriving DecidableEq

/-- A 4x4 matrix in row-major field order (nalgebra `Mat4`, whose
`Mat4::new` takes entries row by row). -/
structure Mat4 where
  m00 : ℚ
  m01 : ℚ
  m02 : ℚ
  m03 : ℚ
  m10 : ℚ
  m11 : ℚ
  m12 : ℚ
  m13 : ℚ
  m20 : ℚ
  m21 : ℚ
  m22 : ℚ
  m23 : ℚ
  m30 : ℚ
  m31 : ℚ
  m32 : ℚ
  m33 : ℚ
  deriving DecidableEq

/-- A 3x3 matrix in row-major field order (nalgebra `Mat3`). -/
structure Mat3 where
  m00 : ℚ
  m01 : ℚ
  m02 : ℚ
  m10 : ℚ
  m11 : ℚ
  m12 : ℚ
  m20 : ℚ
  m21 : ℚ
  m22 : ℚ
  deriving DecidableEq

/-- Mesh vertex. Modelled from the spec: `vertex.rs` is not in `src/`;
per spec section 3 a vertex carries a local position, local normal,
texture coordinate, color, homogeneous clip-space position and
transformed normal, exactly the fields read and written by
`shaders.rs::vertex_shader` and `triangle.rs::triangle`. -/
structure Vertex where
  position : Vec3
  normal : Vec3
  tex_coords : Vec2
  color : Color
  transformed_position : Vec4
  transformed_normal : Vec3
  deriving DecidableEq

/-- Per-draw-call uniforms bundle (`main.rs::Uniforms`). -/
structure Uniforms where
  model_matrix : Mat4
  view_matrix : Mat4
  projection_matrix : Mat4
  viewport_matrix : Mat4
  time : ℚ
  shader_type : ℕ
  deriving DecidableEq

/-- Rasterized pixel candidate. Modelled from the spec: `fragment.rs` is
not in `src/`; per spec section 3 a fragment carries integer screen
coordinates, a color, an interpolated depth and an interpolated
local-space surface position, exactly the fields `triangle.rs` passes to
`Fragment::new_with_vertex_position` and `main.rs` reads back. -/
structure Fragment where
  position : Vec2
  color : Color
  depth : ℚ
  vertex_position : Vec3
  deriving DecidableEq

/-! ## Rasterizer: `src/triangle.rs` -/

/-- The 2D edge function, `triangle.rs::edge_function`:
`(c.x - a.x) * (b.y - a.y) - (c.y - a.y) * (b.x - a.x)`. -/
def edge_function (a b c : Vec3) : ℚ :=
  (c.x - a.x) * (b.y - a.y) - (c.y - a.y) * (b.x - a.x)

/-- Barycentric weights of `p` with respect to triangle `a b c`,
`triangle.rs::barycentric_coordinates`. -/
def barycentric_coordinates (p a b c : Vec3) (area : ℚ) : ℚ × ℚ × ℚ :=
  (edge_function b c p / area, edge_function c a p / area, edge_function a b p / area)

/-- Screen-space bounding box, `triangle.rs::calculate_bounding_box`:
floors of the minima and ceilings of the maxima, cast to `i32`
(the casts are exact on the already-integral floor and ceiling values). -/
def calculate_bounding_box (v1 v2 v3 : Vec3) : ℤ × ℤ × ℤ × ℤ :=
  (⌊min (min v1.x v2.x) v3.x⌋, ⌊min (min v1.y v2.y) v3.y⌋,
   ⌈max (max v1.x v2.x) v3.x⌉, ⌈max (max v1.y v2.y) v3.y⌉)

/-- Perspective division of a transformed vertex, `triangle.rs` lines
19-33: each clip coordinate divided by that vertex's own `w`. -/
def perspectiveDivide (v : Vertex) : Vec3 :=
  ⟨v.transformed_position.x / v.transformed_position.w,
   v.transformed_position.y / v.transformed_position.w,
   v.transformed_position.z / v.transformed_position.w⟩

/-- Viewport transformation, the closure `transform_to_screen` in
`triangle.rs` lines 36-40, with the fixed constants 800 and 600. -/
def transform_to_screen (pos : Vec3) : Vec3 :=
  ⟨(pos.x * 0.5 + 0.5) * 800, (1 - (pos.y * 0.5 + 0.5)) * 600, pos.z⟩

/-- Screen-space position of a vertex: perspective divide followed by the
viewport transformation (`triangle.rs` lines 19-44). -/
def screenVert (v : Vertex) : Vec3 :=
  transform_to_screen (perspectiveDivide v)

/-- Signed area (edge function) of the screen-space triangle,
`triangle.rs` line 59. -/
def triArea (v1 v2 v3 : Vertex) : ℚ :=
  edge_function (screenVert v1) (screenVert v2) (screenVert v3)

/-- Barycentric weights of the pixel center `(x + 0.5, y + 0.5)` for the
screen-space triangle, `triangle.rs` lines 72-74. -/
def weightsAt (v1 v2 v3 : Vertex) (x y : ℤ) : ℚ × ℚ × ℚ :=
  barycentric_coordinates ⟨(x : ℚ) + 0.5, (y : ℚ) + 0.5, 0⟩
    (screenVert v1) (screenVert v2) (screenVert v3) (triArea v1 v2 v3)

/-- The fragment emitted for pixel `(x, y)`, `triangle.rs` lines 77-90:
perspective-correct (`1/w`-weighted) interpolation of the local position,
raw barycentric interpolation of the screen-space `z`, and the fixed
white color. -/
def fragAt (v1 v2 v3 : Vertex) (x y : ℤ) : Fragment :=
  let a_w := v1.transformed_position.w
  let b_w := v2.transformed_position.w
  let c_w := v3.transformed_position.w
  let w := weightsAt v1 v2 v3 x y
  let inv_w := 1 / a_w * w.1 + 1 / b_w * w.2.1 + 1 / c_w * w.2.2
  let wq := 1 / inv_w
  let vertex_position :=
    (v1.position * (w.1 / a_w) + v2.position * (w.2.1 / b_w) +
      v3.position * (w.2.2 / c_w)) * wq
  let depth := (screenVert v1).z * w.1 + (screenVert v2).z * w.2.1 +
    (screenVert v3).z * w.2.2
  { position := ⟨(x : ℚ), (y : ℚ)⟩
    color := ⟨255, 255, 255⟩
    depth := depth
    vertex_position := vertex_position }

/-- The screen bounding box clamped to the framebuffer bounds,
`triangle.rs` lines 46-52: `(min_x, min_y, max_x, max_y)` after
`max .. 0` on the minima and `min .. 799` / `min .. 599` on the maxima. -/
def clampedBox (v1 v2 v3 : Vertex) : ℤ × ℤ × ℤ × ℤ :=
  (max (calculate_bounding_box (screenVert v1) (screenVert v2) (screenVert v3)).1 0,
   max (calculate_bounding_box (screenVert v1) (screenVert v2) (screenVert v3)).2.1 0,
   min (calculate_bounding_box (screenVert v1) (screenVert v2) (screenVert v3)).2.2.1 799,
   min (calculate_bounding_box (screenVert v1) (screenVert v2) (screenVert v3)).2.2.2 599)

/-- The rasterizer, `triangle.rs::triangle`. Returns the fragment list in
the same row-major pixel order as the source's nested loops. The
`uniforms` argument is accepted, as in the source, but never read. -/
def triangle (v1 v2 v3 : Vertex) (uniforms : Uniforms) : List Fragment :=
  if |v1.transformed_position.w| < 1e-6 ∨ |v2.transformed_position.w| < 1e-6 ∨
      |v3.transformed_position.w| < 1e-6 then [] else
  if (clampedBox v1 v2 v3).1 > 799 ∨ (clampedBox v1 v2 v3).2.1 > 599 ∨
      (clampedBox v1 v2 v3).2.2.1 < 0 ∨ (clampedBox v1 v2 v3).2.2.2 < 0 then [] else
  if |triArea v1 v2 v3| < 1e-6 then [] else
  if triArea v1 v2 v3 < 0 then [] else
  (List.range ((clampedBox v1 v2 v3).2.2.2 + 1 - (clampedBox v1 v2 v3).2.1).toNat).flatMap fun (dy : ℕ) =>
    (List.range ((clampedBox v1 v2 v3).2.2.1 + 1 - (clampedBox v1 v2 v3).1).toNat).filterMap fun (dx : ℕ) =>
      if 0 ≤ (weightsAt v1 v2 v3 ((clampedBox v1 v2 v3).1 + (dx : ℤ)) ((clampedBox v1 v2 v3).2.1 + (dy : ℤ))).1 ∧
          0 ≤ (weightsAt v1 v2 v3 ((clampedBox v1 v2 v3).1 + (dx : ℤ)) ((clampedBox v1 v2 v3).2.1 + (dy : ℤ))).2.1 ∧
          0 ≤ (weightsAt v1 v2 v3 ((clampedBox v1 v2 v3).1 + (dx : ℤ)) ((clampedBox v1 v2 v3).2.1 + (dy : ℤ))).2.2 then
        some (fragAt v1 v2 v3 ((clampedBox v1 v2 v3).1 + (dx : ℤ)) ((clampedBox v1 v2 v3).2.1 + (dy : ℤ)))
      else none

/-! ## Helper lemmas about the rasterizer -/

theorem eps_pos : (0 : ℚ) < 1e-6 := by
  norm_num [show (1e-6 : ℚ) = 1 / 1000000 from by norm_num [OfScientific.ofScientific]]

/-- Anything in the output of `triangle` is a `fragAt` of some pixel
inside the clamped bounding box whose barycentric weights are all
nonnegative, and all三 guards of the rasterizer passed. -/
theorem mem_triangle_elim {v1 v2 v3 : Vertex} {u : Uniforms} {f : Fragment}
    (h : f ∈ triangle v1 v2 v3 u) :
    ∃ x y : ℤ,
      f = fragAt v1 v2 v3 x y ∧
      ¬(|v1.transformed_position.w| < 1e-6 ∨ |v2.transformed_position.w| < 1e-6 ∨
        |v3.transformed_position.w| < 1e-6) ∧
      0 < triArea v1 v2 v3 ∧
      0 ≤ (weightsAt v1 v2 v3 x y).1 ∧ 0 ≤ (weightsAt v1 v2 v3 x y).2.1 ∧
      0 ≤ (weightsAt v1 v2 v3 x y).2.2 ∧
      (clampedBox v1 v2 v3).1 ≤ x ∧ x ≤ (clampedBox v1 v2 v3).2.2.1 ∧
      (clampedBox v1 v2 v3).2.1 ≤ y ∧ y ≤ (clampedBox v1 v2 v3).2.2.2 := by
  unfold triangle at h
  split at h
  · exact absurd h (List.not_mem_nil f)
  · rename_i hguard
    split at h
    · exact absurd h (List.not_mem_nil f)
    · split at h
      · exact absurd h (List.not_mem_nil f)
      · split at h
        · exact absurd h (List.not_mem_nil f)
        · rename_i hdeg hneg
          rw [List.mem_flatMap] at h
          obtain ⟨dy, hdy, h⟩ := h
          rw [List.mem_filterMap] at h
          obtain ⟨dx, hdx, hsome⟩ := h
          rw [List.mem_range] at hdy hdx
          split at hsome
          · rename_i hcond
            have hf := (Option.some.injEq _ _).mp hsome
            refine ⟨_, _, hf.symm, hguard, ?_, hcond.1, hcond.2.1, hcond.2.2, ?_, ?_, ?_, ?_⟩
            · have h1 : ¬|triArea v1 v2 v3| < 1e-6 := hdeg
              have h2 : ¬triArea v1 v2 v3 < 0 := hneg
              push_neg at h1 h2
              calc (0 : ℚ) < 1e-6 := eps_pos
                _ ≤ |triArea v1 v2 v3| := h1
                _ = triArea v1 v2 v3 := abs_of_nonneg h2
            · omega
            · omega
            · omega
            · omega
          · exact absurd hsome (by simp)

/-- The three barycentric weights of any pixel sum to one when the
triangle area is nonzero (the three edge-function sub-areas add up to
the full signed area). -/
theorem weightsAt_sum {v1 v2 v3 : Vertex} (x y : ℤ) (h : triArea v1 v2 v3 ≠ 0) :
    (weightsAt v1 v2 v3 x y).1 + (weightsAt v1 v2 v3 x y).2.1 +
      (weightsAt v1 v2 v3 x y).2.2 = 1 := by
  unfold weightsAt barycentric_coordinates
  rw [div_add_div_same, div_add_div_same, div_eq_one_iff_eq h]
  unfold triArea edge_function
  ring

/-! ## Spec-side definitions (section 4.4 step 6 of the spec)

The `1/w`-weighted perspective-correct blend: weight each vertex
attribute by `barycentricWeight_i / w_i`, sum, then divide by the sum of
the `barycentricWeight_i / w_i`. -/

/-- Perspective-correct `1/w`-weighted blend of a scalar attribute, as
the spec words it. -/
def pcBlendScalar (a1 a2 a3 w1 w2 w3 aw bw cw : ℚ) : ℚ :=
  (a1 * (w1 / aw) + a2 * (w2 / bw) + a3 * (w3 / cw)) / (w1 / aw + w2 / bw + w3 / cw)

/-- Perspective-correct `1/w`-weighted blend of a `Vec3` attribute, as
the spec words it. -/
def pcBlendVec (p1 p2 p3 : Vec3) (w1 w2 w3 aw bw cw : ℚ) : Vec3 :=
  ⟨pcBlendScalar p1.x p2.x p3.x w1 w2 w3 aw bw cw,
   pcBlendScalar p1.y p2.y p3.y w1 w2 w3 aw bw cw,
   pcBlendScalar p1.z p2.z p3.z w1 w2 w3 aw bw cw⟩

/-- Raw (non-perspective-corrected) barycentric blend of a scalar
attribute by the screen-space weights. -/
def rawBlend (z1 z2 z3 w1 w2 w3 : ℚ) : ℚ := z1 * w1 + z2 * w2 + z3 * w3

/-! ## Claims about the rasterizer -/

/-- C1 (amended): every fragment emitted by the rasterizer carries a
local-space surface position that is the perspective-correct
`1/w`-weighted barycentric blend of the three vertices' local positions,
and a depth that is the RAW screen-space barycentric blend of the three
vertices' screen-space `z` values (the code does not apply the `1/w`
weighting to depth — see the counterexample for the original claim). -/
theorem C1_perspective_interpolation (v1 v2 v3 : Vertex) (u : Uniforms) (f : Fragment)
    (hf : f ∈ triangle v1 v2 v3 u) :
    ∃ x y : ℤ, f.position = ⟨(x : ℚ), (y : ℚ)⟩ ∧
      f.vertex_position =
        pcBlendVec v1.position v2.position v3.position
          (weightsAt v1 v2 v3 x y).1 (weightsAt v1 v2 v3 x y).2.1 (weightsAt v1 v2 v3 x y).2.2
          v1.transformed_position.w v2.transformed_position.w v3.transformed_position.w ∧
      f.depth =
        rawBlend (screenVert v1).z (screenVert v2).z (screenVert v3).z
          (weightsAt v1 v2 v3 x y).1 (weightsAt v1 v2 v3 x y).2.1
          (weightsAt v1 v2 v3 x y).2.2 := by
  obtain ⟨x, y, rfl, -⟩ := mem_triangle_elim hf
  refine ⟨x, y, rfl, ?_, rfl⟩
  unfold fragAt pcBlendVec pcBlendScalar
  have hD : (1 / v1.transformed_position.w * (weightsAt v1 v2 v3 x y).1 +
      1 / v2.transformed_position.w * (weightsAt v1 v2 v3 x y).2.1 +
      1 / v3.transformed_position.w * (weightsAt v1 v2 v3 x y).2.2) =
      ((weightsAt v1 v2 v3 x y).1 / v1.transformed_position.w +
       (weightsAt v1 v2 v3 x y).2.1 / v2.transformed_position.w +
       (weightsAt v1 v2 v3 x y).2.2 / v3.transformed_position.w) := by ring
  simp only [Vec3.smul_def, Vec3.add_def]
  rw [hD]
  exact Vec3.ext (mul_one_div _ _) (mul_one_div _ _) (mul_one_div _ _)

/-- C5 (amended): when all three homogeneous `w` are positive, a
per-vertex position attribute that is the same at all three vertices is
interpolated to exactly that constant at every emitted pixel. -/
theorem C5_constant_interpolation (v1 v2 v3 : Vertex) (u : Uniforms) (c : Vec3)
    (ha : 0 < v1.transformed_position.w) (hb : 0 < v2.transformed_position.w)
    (hc : 0 < v3.transformed_position.w)
    (h1 : v1.position = c) (h2 : v2.position = c) (h3 : v3.position = c)
    (f : Fragment) (hf : f ∈ triangle v1 v2 v3 u) :
    f.vertex_position = c := by
  obtain ⟨x, y, rfl, -, harea, hw1, hw2, hw3, -⟩ := mem_triangle_elim hf
  have hsum := weightsAt_sum x y (ne_of_gt harea)
  set W1 := (weightsAt v1 v2 v3 x y).1 with hW1
  set W2 := (weightsAt v1 v2 v3 x y).2.1 with hW2
  set W3 := (weightsAt v1 v2 v3 x y).2.2 with hW3
  set aw := v1.transformed_position.w
  set bw := v2.transformed_position.w
  set cw := v3.transformed_position.w
  have hta : 0 ≤ 1 / aw * W1 := mul_nonneg (by positivity) hw1
  have htb : 0 ≤ 1 / bw * W2 := mul_nonneg (by positivity) hw2
  have htc : 0 ≤ 1 / cw * W3 := mul_nonneg (by positivity) hw3
  have hinv : 1 / aw * W1 + 1 / bw * W2 + 1 / cw * W3 ≠ 0 := by
    intro h0
    have hz1 : 1 / aw * W1 = 0 := by nlinarith
    have hz2 : 1 / bw * W2 = 0 := by nlinarith
    have hz3 : 1 / cw * W3 = 0 := by nlinarith
    have e1 : W1 = 0 := by
      rcases mul_eq_zero.mp hz1 with h | h
      · exact absurd h (by positivity)
      · exact h
    have e2 : W2 = 0 := by
      rcases mul_eq_zero.mp hz2 with h | h
      · exact absurd h (by positivity)
      · exact h
    have e3 : W3 = 0 := by
      rcases mul_eq_zero.mp hz3 with h | h
      · exact absurd h (by positivity)
      · exact h
    rw [e1, e2, e3] at hsum
    norm_num at hsum
  unfold fragAt
  rw [h1, h2, h3]
  simp only [Vec3.smul_def, Vec3.add_def, ← hW1, ← hW2, ← hW3]
  have key : ∀ q : ℚ,
      (q * (W1 / aw) + q * (W2 / bw) + q * (W3 / cw)) *
        (1 / (1 / aw * W1 + 1 / bw * W2 + 1 / cw * W3)) = q := by
    intro q
    have hrw : q * (W1 / aw) + q * (W2 / bw) + q * (W3 / cw) =
        q * (1 / aw * W1 + 1 / bw * W2 + 1 / cw * W3) := by ring
    rw [hrw, mul_one_div, mul_div_assoc, div_self hinv, mul_one]
  exact Vec3.ext (key c.x) (key c.y) (key c.z)

/-- C6: a triangle in which some vertex's homogeneous `w` has magnitude
below `1e-6` is rejected by the rasterizer with an empty fragment list. -/
theorem C6_epsilon_rejection (v1 v2 v3 : Vertex) (u : Uniforms)
    (h : |v1.transformed_position.w| < 1e-6 ∨ |v2.transformed_position.w| < 1e-6 ∨
      |v3.transformed_position.w| < 1e-6) :
    triangle v1 v2 v3 u = [] := by
  unfold triangle
  rw [if_pos h]

/-- C7: a triangle that passes the `w` guard but whose screen-space
signed area is degenerate (below `1e-6` in magnitude) or negative
(back-facing) yields zero fragments. -/
theorem C7_backface_and_degenerate_cull (v1 v2 v3 : Vertex) (u : Uniforms)
    (hw : ¬(|v1.transformed_position.w| < 1e-6 ∨ |v2.transformed_position.w| < 1e-6 ∨
      |v3.transformed_position.w| < 1e-6))
    (h : |triArea v1 v2 v3| < 1e-6 ∨ triArea v1 v2 v3 < 0) :
    triangle v1 v2 v3 u = [] := by
  unfold triangle
  rw [if_neg hw]
  split
  · rfl
  · split
    · rfl
    · split
      · rfl
      · rename_i h1 h2
        rcases h with h | h
        · exact absurd h h1
        · exact absurd h h2

/-- C9: every emitted fragment has integer pixel coordinates inside both
the framebuffer bounds `[0,799] x [0,599]` and the triangle's clamped
screen bounding box. -/
theorem C9_fragment_bounds (v1 v2 v3 : Vertex) (u : Uniforms) (f : Fragment)
    (hf : f ∈ triangle v1 v2 v3 u) :
    ∃ x y : ℤ, f.position = ⟨(x : ℚ), (y : ℚ)⟩ ∧
      0 ≤ x ∧ x ≤ 799 ∧ 0 ≤ y ∧ y ≤ 599 ∧
      (clampedBox v1 v2 v3).1 ≤ x ∧ x ≤ (clampedBox v1 v2 v3).2.2.1 ∧
      (clampedBox v1 v2 v3).2.1 ≤ y ∧ y ≤ (clampedBox v1 v2 v3).2.2.2 := by
  obtain ⟨x, y, rfl, -, -, -, -, -, hx1, hx2, hy1, hy2⟩ := mem_triangle_elim hf
  have hcb1 : 0 ≤ (clampedBox v1 v2 v3).1 := le_max_right _ _
  have hcb2 : 0 ≤ (clampedBox v1 v2 v3).2.1 := le_max_right _ _
  have hcb3 : (clampedBox v1 v2 v3).2.2.1 ≤ 799 := min_le_right _ _
  have hcb4 : (clampedBox v1 v2 v3).2.2.2 ≤ 599 := min_le_right _ _
  exact ⟨x, y, rfl, by omega, by omega, by omega, by omega, hx1, hx2, hy1, hy2⟩

/-- C10: the rasterizer ignores its uniforms argument entirely — any two
uniforms values produce the identical fragment sequence (the screen
mapping uses the fixed constants 800 and 600, not the viewport matrix). -/
theorem C10_uniforms_independence (v1 v2 v3 : Vertex) (u u2 : Uniforms) :
    triangle v1 v2 v3 u = triangle v1 v2 v3 u2 := rfl

/-! ## Concrete test triangles

`Rat` arithmetic is `@[irreducible]` in the library; it is made
semireducible locally so `decide` can evaluate the rasterizer on the
concrete inputs below. -/

section ConcreteRasterizer

attribute [local semireducible] Rat.mul Rat.inv Rat.add Rat.sub Rat.ofScientific

set_option maxRecDepth 100000

/-- A zero 4x4 matrix, used only to fill the unread uniforms argument. -/
def mat4Zero : Mat4 := ⟨0, 0, 0, 0, 0, 0, 0, 0, 0, 0, 0, 0, 0, 0, 0, 0⟩

/-- A dummy uniforms value (the rasterizer never reads it). -/
def uZero : Uniforms := ⟨mat4Zero, mat4Zero, mat4Zero, mat4Zero, 0, 0⟩

/-- Vertex with clip position `(-1, 1, 0, 1)` (screen `(0,0)`, `w = 1`)
and constant local position `(5, 6, 7)`. -/
def cv1 : Vertex := ⟨⟨5, 6, 7⟩, ⟨0, 0, 1⟩, ⟨0, 0⟩, ⟨0, 0, 0⟩, ⟨-1, 1, 0, 1⟩, ⟨0, 0, 1⟩⟩

/-- Vertex with clip position `(-2, 99/50, 1, 2)` (screen `(0,3)`,
NDC `z = 1/2`, `w = 2`) and constant local position `(5, 6, 7)`. -/
def cv2 : Vertex := ⟨⟨5, 6, 7⟩, ⟨0, 0, 1⟩, ⟨0, 0⟩, ⟨0, 0, 0⟩, ⟨-2, 99/50, 1, 2⟩, ⟨0, 0, 1⟩⟩

/-- Vertex with clip position `(-99/100, 1, 0, 1)` (screen `(4,0)`,
`w = 1`) and constant local position `(5, 6, 7)`. -/
def cv3 : Vertex := ⟨⟨5, 6, 7⟩, ⟨0, 0, 1⟩, ⟨0, 0⟩, ⟨0, 0, 0⟩, ⟨-99/100, 1, 0, 1⟩, ⟨0, 0, 1⟩⟩

/-- The fragment the rasterizer emits at pixel `(0,0)` for the triangle
`cv1 cv2 cv3`: raw-blended depth `1/12` and constant position `(5,6,7)`. -/
def f1c : Fragment := ⟨⟨0, 0⟩, ⟨255, 255, 255⟩, 1/12, ⟨5, 6, 7⟩⟩

/-- C1, witness: the concrete triangle `cv1 cv2 cv3` (with differing
`w`) emits the fragment `f1c`, whose position and depth satisfy the
amended interpolation statement. -/
theorem C1_perspective_interpolation_witness :
    ∃ x y : ℤ, f1c.position = ⟨(x : ℚ), (y : ℚ)⟩ ∧
      f1c.vertex_position =
        pcBlendVec cv1.position cv2.position cv3.position
          (weightsAt cv1 cv2 cv3 x y).1 (weightsAt cv1 cv2 cv3 x y).2.1 (weightsAt cv1 cv2 cv3 x y).2.2
          cv1.transformed_position.w cv2.transformed_position.w cv3.transformed_position.w ∧
      f1c.depth =
        rawBlend (screenVert cv1).z (screenVert cv2).z (screenVert cv3).z
          (weightsAt cv1 cv2 cv3 x y).1 (weightsAt cv1 cv2 cv3 x y).2.1
          (weightsAt cv1 cv2 cv3 x y).2.2 :=
  C1_perspective_interpolation cv1 cv2 cv3 uZero f1c (by decide)

/-- C1, counterexample to the original claim: the emitted fragment at
pixel `(0,0)` of the triangle `cv1 cv2 cv3` has depth `1/12` (the raw
barycentric blend of the screen `z` values), which differs from the
perspective-correct `1/w`-weighted blend `1/22` of those same values, so
the fragment depth is NOT the `1/w`-weighted blend. -/
theorem C1_depth_counterexample :
    f1c ∈ triangle cv1 cv2 cv3 uZero ∧ f1c.position = ⟨(0 : ℚ), (0 : ℚ)⟩ ∧
      f1c.depth ≠
        pcBlendScalar (screenVert cv1).z (screenVert cv2).z (screenVert cv3).z
          (weightsAt cv1 cv2 cv3 0 0).1 (weightsAt cv1 cv2 cv3 0 0).2.1
          (weightsAt cv1 cv2 cv3 0 0).2.2
          cv1.transformed_position.w cv2.transformed_position.w
          cv3.transformed_position.w := by
  refine ⟨by decide, rfl, by decide⟩

/-- C5, witness: on the triangle `cv1 cv2 cv3` with positive differing
`w` values `(1, 2, 1)` and constant position attribute `(5,6,7)`, the
emitted fragment `f1c` carries exactly the constant. -/
theorem C5_constant_interpolation_witness : f1c.vertex_position = ⟨5, 6, 7⟩ :=
  C5_constant_interpolation cv1 cv2 cv3 uZero ⟨5, 6, 7⟩ (by decide) (by decide)
    (by decide) rfl rfl rfl f1c (by decide)

/-- Vertex with clip position `(-1, 1, 0, 1)` (screen `(0,0)`, `w = 1`)
and constant local position `(1, 1, 1)`. -/
def dv1 : Vertex := ⟨⟨1, 1, 1⟩, ⟨0, 0, 1⟩, ⟨0, 0⟩, ⟨0, 0, 0⟩, ⟨-1, 1, 0, 1⟩, ⟨0, 0, 1⟩⟩

/-- Vertex with clip position `(-2, 97/50, 0, 2)` (screen `(0,9)`,
`w = 2`) and constant local position `(1, 1, 1)`. -/
def dv2 : Vertex := ⟨⟨1, 1, 1⟩, ⟨0, 0, 1⟩, ⟨0, 0⟩, ⟨0, 0, 0⟩, ⟨-2, 97/50, 0, 2⟩, ⟨0, 0, 1⟩⟩

/-- Vertex with clip position `(99/100, -1, 0, -1)` (screen `(4,0)`,
`w = -1`) and constant local position `(1, 1, 1)`. -/
def dv3 : Vertex := ⟨⟨1, 1, 1⟩, ⟨0, 0, 1⟩, ⟨0, 0⟩, ⟨0, 0, 0⟩, ⟨99/100, -1, 0, -1⟩, ⟨0, 0, 1⟩⟩

/-- C5, counterexample to the original claim: a triangle with pairwise
differing homogeneous `w` values `(1, 2, -1)` — one negative — and a
constant position attribute `(1,1,1)` at all three vertices emits a
fragment (at pixel `(1,4)`, where the `1/w`-weight sum vanishes) whose
interpolated position is NOT the constant. -/
theorem C5_constant_interpolation_counterexample :
    (dv1.position = ⟨1, 1, 1⟩ ∧ dv2.position = ⟨1, 1, 1⟩ ∧ dv3.position = ⟨1, 1, 1⟩ ∧
      dv1.transformed_position.w ≠ dv2.transformed_position.w ∧
      dv1.transformed_position.w ≠ dv3.transformed_position.w ∧
      dv2.transformed_position.w ≠ dv3.transformed_position.w) ∧
    ∃ f ∈ triangle dv1 dv2 dv3 uZero, f.vertex_position ≠ ⟨1, 1, 1⟩ := by
  exact ⟨by decide, by decide⟩

/-- Vertex with homogeneous `w = 1e-8`, below the rasterizer epsilon. -/
def wv : Vertex := ⟨⟨0, 0, 0⟩, ⟨0, 0, 1⟩, ⟨0, 0⟩, ⟨0, 0, 0⟩, ⟨0, 0, 0, 1e-8⟩, ⟨0, 0, 1⟩⟩

/-- C6, witness: a triangle whose three vertices all have `w = 1e-8`
yields zero fragments. -/
theorem C6_epsilon_rejection_witness :
    (|wv.transformed_position.w| < 1e-6 ∨ |wv.transformed_position.w| < 1e-6 ∨
      |wv.transformed_position.w| < 1e-6) ∧
    triangle wv wv wv uZero = [] :=
  ⟨by decide, C6_epsilon_rejection wv wv wv uZero (by decide)⟩

/-- C7, witness: the triangle `cv1 cv3 cv2` (the triangle `cv1 cv2 cv3`
with reversed winding, screen signed area `-12`) passes the `w` guard
and is rejected with zero fragments. -/
theorem C7_backface_cull_witness :
    ¬(|cv1.transformed_position.w| < 1e-6 ∨ |cv3.transformed_position.w| < 1e-6 ∨
      |cv2.transformed_position.w| < 1e-6) ∧
    (|triArea cv1 cv3 cv2| < 1e-6 ∨ triArea cv1 cv3 cv2 < 0) ∧
    triangle cv1 cv3 cv2 uZero = [] :=
  ⟨by decide, by decide,
    C7_backface_and_degenerate_cull cv1 cv3 cv2 uZero (by decide) (by decide)⟩

/-- C9, witness: the fragment `f1c` emitted for the triangle
`cv1 cv2 cv3` lies inside the screen and the clamped bounding box. -/
theorem C9_fragment_bounds_witness :
    ∃ x y : ℤ, f1c.position = ⟨(x : ℚ), (y : ℚ)⟩ ∧
      0 ≤ x ∧ x ≤ 799 ∧ 0 ≤ y ∧ y ≤ 599 ∧
      (clampedBox cv1 cv2 cv3).1 ≤ x ∧ x ≤ (clampedBox cv1 cv2 cv3).2.2.1 ∧
      (clampedBox cv1 cv2 cv3).2.1 ≤ y ∧ y ≤ (clampedBox cv1 cv2 cv3).2.2.2 :=
  C9_fragment_bounds cv1 cv2 cv3 uZero f1c (by decide)

end ConcreteRasterizer

/-! ## Procedural noise: `src/shaders.rs` lines 31-71

The hash `rand` applies `f32::sin`; `sin` has no exact computable model
on `ℚ`, so it is passed as an explicit function parameter `sinA`. Every
other operation (`floor`, `fract`, `dot`, arithmetic) is modelled
exactly. -/

/-- Truncation toward zero, Rust `f32::trunc`. -/
def rustTrunc (x : ℚ) : ℤ := if 0 ≤ x then ⌊x⌋ else ⌈x⌉

/-- Fractional part, Rust `f32::fract = x - x.trunc()`. Note this is
negative for negative inputs, unlike `x - floor x`. -/
def rustFract (x : ℚ) : ℚ := x - rustTrunc x

/-- The hash `shaders.rs::rand`:
`(p.dot(k).sin() * 43758.5453).fract()` with
`k = (12.9898, 78.233, 45.5432)`. -/
def rand (sinA : ℚ → ℚ) (p : Vec3) : ℚ :=
  rustFract (sinA (dotV p ⟨12.9898, 78.233, 45.5432⟩) * 43758.5453)

/-- The local closure `mix` in `shaders.rs::noise`: `a + t * (b - a)`. -/
def mixQ (a b t : ℚ) : ℚ := a + t * (b - a)

/-- Value noise, `shaders.rs::noise`: trilinear `mix` of the eight
corner hashes of the lattice cell `floor(p)`, with blend weights
`u = (f*f).map(x * (3 - 2*x))` where `f = p.map(fract)`. -/
def noise (sinA : ℚ → ℚ) (p : Vec3) : ℚ :=
  let i : Vec3 := mapV (fun x => (⌊x⌋ : ℚ)) p
  let f : Vec3 := mapV rustFract p
  let u : Vec3 := mapV (fun x => x * (3 - 2 * x)) (componentMulV f f)
  mixQ
    (mixQ (mixQ (rand sinA (i + ⟨0, 0, 0⟩)) (rand sinA (i + ⟨1, 0, 0⟩)) u.x)
      (mixQ (rand sinA (i + ⟨0, 1, 0⟩)) (rand sinA (i + ⟨1, 1, 0⟩)) u.x) u.y)
    (mixQ (mixQ (rand sinA (i + ⟨0, 0, 1⟩)) (rand sinA (i + ⟨1, 0, 1⟩)) u.x)
      (mixQ (rand sinA (i + ⟨0, 1, 1⟩)) (rand sinA (i + ⟨1, 1, 1⟩)) u.x) u.y)
    u.z

/-- State of the `fbm` loop after some iterations:
`(total, frequency, amplitude, max_value)`, updated exactly as the loop
body of `shaders.rs::fbm` does. -/
def fbmLoop (sinA : ℚ → ℚ) (p : Vec3) (persistence lacunarity : ℚ) : ℕ → ℚ × ℚ × ℚ × ℚ
  | 0 => (0, 1, 1, 0)
  | n + 1 =>
    let s := fbmLoop sinA p persistence lacunarity n
    (s.1 + noise sinA (p * s.2.1) * s.2.2.1, s.2.1 * lacunarity,
      s.2.2.1 * persistence, s.2.2.2 + s.2.2.1)

/-- Fractal Brownian motion, `shaders.rs::fbm`: run the loop `octaves`
times (an `i32` count; nonpositive counts run zero iterations) and
return `total / max_value`. -/
def fbm (sinA : ℚ → ℚ) (p : Vec3) (octaves : ℤ) (persistence lacunarity : ℚ) : ℚ :=
  (fbmLoop sinA p persistence lacunarity octaves.toNat).1 /
    (fbmLoop sinA p persistence lacunarity octaves.toNat).2.2.2

/-! ## Bounds on the noise layer -/

/-- Rust `fract` always lies strictly between `-1` and `1`. -/
theorem rustFract_bounds (x : ℚ) : -1 < rustFract x ∧ rustFract x < 1 := by
  unfold rustFract rustTrunc
  split
  · have h1 := Int.fract_nonneg x
    have h2 := Int.fract_lt_one x
    unfold Int.fract at h1 h2
    constructor <;> linarith
  · have h1 := Int.ceil_lt_add_one x
    have h2 := Int.le_ceil x
    constructor <;> linarith

/-- The hash output always has magnitude at most one, whatever the sine
model does. -/
theorem abs_rand_le_one (sinA : ℚ → ℚ) (p : Vec3) : |rand sinA p| ≤ 1 := by
  obtain ⟨h1, h2⟩ := rustFract_bounds (sinA (dotV p ⟨12.9898, 78.233, 45.5432⟩) * 43758.5453)
  exact abs_le.mpr ⟨le_of_lt h1, le_of_lt h2⟩

/-- The blend weight `f² * (3 - 2 f²)` lies in `[0, 9/8]` whenever
`f ∈ (-1, 1)` (its maximum `9/8` is reached at `f² = 3/4`, so it does
exceed `1`). -/
theorem weight_bounds {f : ℚ} (h1 : -1 < f) (h2 : f < 1) :
    0 ≤ f * f * (3 - 2 * (f * f)) ∧ f * f * (3 - 2 * (f * f)) ≤ 9 / 8 := by
  have hsq : f * f < 1 := by nlinarith
  have h3 : (0 : ℚ) ≤ 3 - 2 * (f * f) := by linarith
  exact ⟨mul_nonneg (mul_self_nonneg f) h3, by nlinarith [sq_nonneg (f * f - 3 / 4)]⟩

/-- A `mix` with weight in `[0, 9/8]` of two values of magnitude at most
`M` has magnitude at most `(5/4) * M`. -/
theorem abs_mixQ_le {a b t M : ℚ} (ha : |a| ≤ M) (hb : |b| ≤ M)
    (ht0 : 0 ≤ t) (ht1 : t ≤ 9 / 8) : |mixQ a b t| ≤ 5 / 4 * M := by
  rw [abs_le] at ha hb ⊢
  unfold mixQ
  rcases le_or_lt t 1 with h | h
  · constructor <;> nlinarith
  · constructor <;> nlinarith

/-- A three-level `mixQ` tree over eight values of magnitude at most one
with all three weights in `[0, 9/8]` is bounded by `(5/4)^3 = 125/64`. -/
theorem abs_trilinear_le {r000 r100 r010 r110 r001 r101 r011 r111 ux uy uz : ℚ}
    (h000 : |r000| ≤ 1) (h100 : |r100| ≤ 1) (h010 : |r010| ≤ 1) (h110 : |r110| ≤ 1)
    (h001 : |r001| ≤ 1) (h101 : |r101| ≤ 1) (h011 : |r011| ≤ 1) (h111 : |r111| ≤ 1)
    (hux0 : 0 ≤ ux) (hux1 : ux ≤ 9 / 8) (huy0 : 0 ≤ uy) (huy1 : uy ≤ 9 / 8)
    (huz0 : 0 ≤ uz) (huz1 : uz ≤ 9 / 8) :
    |mixQ (mixQ (mixQ r000 r100 ux) (mixQ r010 r110 ux) uy)
      (mixQ (mixQ r001 r101 ux) (mixQ r011 r111 ux) uy) uz| ≤ 125 / 64 := by
  have m1 := abs_mixQ_le h000 h100 hux0 hux1
  have m2 := abs_mixQ_le h010 h110 hux0 hux1
  have m3 := abs_mixQ_le h001 h101 hux0 hux1
  have m4 := abs_mixQ_le h011 h111 hux0 hux1
  have hy1 := abs_mixQ_le m1 m2 huy0 huy1
  have hy2 := abs_mixQ_le m3 m4 huy0 huy1
  have hz := abs_mixQ_le hy1 hy2 huz0 huz1
  calc |mixQ (mixQ (mixQ r000 r100 ux) (mixQ r010 r110 ux) uy)
        (mixQ (mixQ r001 r101 ux) (mixQ r011 r111 ux) uy) uz|
      ≤ 5 / 4 * (5 / 4 * (5 / 4 * 1)) := hz
    _ = 125 / 64 := by norm_num

/-- The value noise is bounded by `125/64` in magnitude for every input
point and every sine model. -/
theorem abs_noise_le (sinA : ℚ → ℚ) (p : Vec3) : |noise sinA p| ≤ 125 / 64 := by
  have hux := weight_bounds (rustFract_bounds p.x).1 (rustFract_bounds p.x).2
  have huy := weight_bounds (rustFract_bounds p.y).1 (rustFract_bounds p.y).2
  have huz := weight_bounds (rustFract_bounds p.z).1 (rustFract_bounds p.z).2
  simp only [noise, mapV, componentMulV]
  exact abs_trilinear_le (abs_rand_le_one sinA _) (abs_rand_le_one sinA _)
    (abs_rand_le_one sinA _) (abs_rand_le_one sinA _) (abs_rand_le_one sinA _)
    (abs_rand_le_one sinA _) (abs_rand_le_one sinA _) (abs_rand_le_one sinA _)
    hux.1 hux.2 huy.1 huy.2 huz.1 huz.2

/-- Invariant of the `fbm` loop: the running total is bounded by
`125/64` times the accumulated amplitude, the amplitude stays positive,
and after at least one iteration the accumulated amplitude is at least
one. -/
theorem fbmLoop_invariant (sinA : ℚ → ℚ) (p : Vec3) {per : ℚ} (lac : ℚ)
    (hper : 0 < per) (n : ℕ) :
    |(fbmLoop sinA p per lac n).1| ≤ 125 / 64 * (fbmLoop sinA p per lac n).2.2.2 ∧
    0 < (fbmLoop sinA p per lac n).2.2.1 ∧
    0 ≤ (fbmLoop sinA p per lac n).2.2.2 ∧
    (1 ≤ n → 1 ≤ (fbmLoop sinA p per lac n).2.2.2) := by
  induction n with
  | zero => simp [fbmLoop]
  | succ n ih =>
    obtain ⟨iht, iha, ihm, ihm1⟩ := ih
    simp only [fbmLoop]
    refine ⟨?_, mul_pos iha hper, by linarith, ?_⟩
    · calc |(fbmLoop sinA p per lac n).1 + noise sinA (p * (fbmLoop sinA p per lac n).2.1) *
            (fbmLoop sinA p per lac n).2.2.1|
          ≤ |(fbmLoop sinA p per lac n).1| + |noise sinA (p * (fbmLoop sinA p per lac n).2.1) *
            (fbmLoop sinA p per lac n).2.2.1| := abs_add _ _
        _ = |(fbmLoop sinA p per lac n).1| + |noise sinA (p * (fbmLoop sinA p per lac n).2.1)| *
            (fbmLoop sinA p per lac n).2.2.1 := by
            rw [abs_mul, abs_of_pos iha]
        _ ≤ 125 / 64 * (fbmLoop sinA p per lac n).2.2.2 + 125 / 64 *
            (fbmLoop sinA p per lac n).2.2.1 := by
            have hn := abs_noise_le sinA (p * (fbmLoop sinA p per lac n).2.1)
            have h2 : |noise sinA (p * (fbmLoop sinA p per lac n).2.1)| *
                (fbmLoop sinA p per lac n).2.2.1 ≤ 125 / 64 * (fbmLoop sinA p per lac n).2.2.1 :=
              mul_le_mul_of_nonneg_right hn (le_of_lt iha)
            linarith
        _ = 125 / 64 * ((fbmLoop sinA p per lac n).2.2.2 + (fbmLoop sinA p per lac n).2.2.1) := by
            ring
    · intro _
      rcases Nat.eq_zero_or_pos n with h0 | h1
      · subst h0
        simp [fbmLoop]
      · have := ihm1 h1
        linarith

/-- C3 (amended): for every sine model, every input point, every octave
count of at least one, and every positive persistence, `fbm` stays
within `[-125/64, 125/64]` (and in particular is bounded); the tighter
`[-1, 1]` of the original claim fails, see the counterexample. -/
theorem C3_fbm_bounded (sinA : ℚ → ℚ) (p : Vec3) (octaves : ℤ) (per lac : ℚ)
    (hoct : 1 ≤ octaves) (hper : 0 < per) :
    |fbm sinA p octaves per lac| ≤ 125 / 64 := by
  obtain ⟨ht, -, -, hm1⟩ := fbmLoop_invariant sinA p lac hper octaves.toNat
  have hn : 1 ≤ octaves.toNat := by omega
  have hm := hm1 hn
  unfold fbm
  rw [abs_div]
  rw [abs_of_nonneg (by linarith : (0:ℚ) ≤ (fbmLoop sinA p per lac octaves.toNat).2.2.2)]
  rw [div_le_iff₀ (by linarith)]
  linarith [ht]

/-- The `(persistence, lacunarity)` pairs the shaders of `shaders.rs`
pass to `fbm`. -/
def shaderFbmParams : List (ℚ × ℚ) :=
  [(0.6, 2.0), (0.5, 2.5), (0.55, 2.1), (0.5, 2.0), (0.55, 2.0)]

/-- A concrete sine model: zero except at `12.9898` (the hash dot
product of the lattice point `(1,0,0)`), where it takes the small value
`9500/437585453`, making `rand (1,0,0) = 19/20`. Any real `sin` is
bounded by one and vanishes at zero, as this model does. -/
def cSinA : ℚ → ℚ := fun d => if d = 12.9898 then 9500 / 437585453 else 0

section ConcreteNoise

attribute [local semireducible] Rat.mul Rat.inv Rat.add Rat.sub Rat.ofScientific

set_option maxRecDepth 100000

/-- C3, counterexample: the `[-1, 1]` normalization invariant fails. The
blend weight of `noise` is `f²(3-2f²)`, which exceeds one (it is
`2303/2048` at `f = 7/8`), so the trilinear `mix` extrapolates: with a
sine model that is bounded by one and vanishes at zero — as the real
`sin` is — `fbm` at point `(7/8, 0, 0)` with one octave and the
shader-used parameters `(0.5, 2.0)` evaluates to `43757/40960 > 1`. -/
theorem C3_fbm_range_counterexample :
    ¬ (∀ sinA : ℚ → ℚ, (∀ d, |sinA d| ≤ 1) → sinA 0 = 0 →
        ∀ (p : Vec3) (octaves : ℤ), ∀ pl ∈ shaderFbmParams,
          |fbm sinA p octaves pl.1 pl.2| ≤ 1) := by
  intro h
  have hb : ∀ d, |cSinA d| ≤ 1 := by
    intro d
    unfold cSinA
    split
    · rw [abs_le]
      constructor <;> norm_num
    · norm_num
  have hc := h cSinA hb (by decide) ⟨7/8, 0, 0⟩ 1 (0.5, 2.0) (by decide)
  rw [show fbm cSinA ⟨7/8, 0, 0⟩ 1 0.5 2.0 = 43757/40960 from by decide] at hc
  rw [show |(43757/40960 : ℚ)| = 43757/40960 from abs_of_pos (by norm_num)] at hc
  norm_num at hc

/-- C3, witness for the amended bound at a concrete input. -/
theorem C3_fbm_bounded_witness :
    |fbm cSinA ⟨7/8, 0, 0⟩ 1 (1/2) 2| ≤ 125 / 64 :=
  C3_fbm_bounded cSinA ⟨7/8, 0, 0⟩ 1 (1/2) 2 (by decide) (by decide)

end ConcreteNoise

/-! ## Surface shaders: `src/shaders.rs` lines 74-500

The transcendental primitives (`sin`, `sqrt`, `powf`, `atan2`) are
gathered in `Prims` and passed to every shader; all control flow,
thresholds, palettes and arithmetic are translated from the source. -/

/-- The transcendental primitives of `f32` that have no exact
computable model on `ℚ`. -/
structure Prims where
  sinA : ℚ → ℚ
  sqrtA : ℚ → ℚ
  powA : ℚ → ℚ → ℚ
  atan2A : ℚ → ℚ → ℚ

/-- nalgebra `magnitude`: the square root of the dot square. -/
def magnitudeV (pr : Prims) (v : Vec3) : ℚ := pr.sqrtA (dotV v v)

/-- nalgebra `normalize`: the vector divided by its magnitude. -/
def normalizeV (pr : Prims) (v : Vec3) : Vec3 :=
  ⟨v.x / magnitudeV pr v, v.y / magnitudeV pr v, v.z / magnitudeV pr v⟩

/-- The final clamp `color.map(|x| x.max(0.0).min(hi))` every planet
shader ends with. -/
def clampV (hi : ℚ) (color : Vec3) : Vec3 := mapV (fun x => min (max x 0) hi) color

/-- Shader source `shaders.rs::shade_star` (lines 74-143). -/
def shade_star (pr : Prims) (point : Vec3) (time : ℚ) : Vec3 :=
  let uv := normalizeV pr point
  let dist_to_center := magnitudeV pr uv
  let core_brightness := max (1 - pr.powA (dist_to_center * (1.2 : ℚ)) 2.0) 0
  let core_color : Vec3 := ⟨1.5, 1.4, 1.2⟩
  let middle_layer : Vec3 := ⟨1.3, 0.9, 0.3⟩
  let outer_layer : Vec3 := ⟨1.2, 0.5, 0.1⟩
  let color := core_color
  let color := if dist_to_center > 0.3 then
      let middle_factor := min ((dist_to_center - 0.3) / 0.3) 1
      lerpV color middle_layer middle_factor
    else color
  let color := if dist_to_center > 0.6 then
      let outer_factor := min ((dist_to_center - 0.6) / 0.4) 1
      lerpV color outer_layer (pr.powA outer_factor 0.5)
    else color
  let sunspot_freq : ℚ := 4.0
  let sunspot_pattern := fbm pr.sinA (uv * sunspot_freq + ⟨time * 0.1, 0, 0⟩) 3 0.6 2.0
  let color := if sunspot_pattern > 0.65 then
      let spot_intensity := (sunspot_pattern - 0.65) * 2.0
      color * (1 - spot_intensity * (0.4 : ℚ))
    else color
  let turbulence_freq : ℚ := 8.0
  let turbulence := fbm pr.sinA (uv * turbulence_freq + ⟨time * 0.3, time * 0.2, 0⟩) 4 0.5 2.5
  let plasma_color : Vec3 := ⟨1.4, 0.6, 0.05⟩
  let color := lerpV color plasma_color (turbulence * (0.25 : ℚ))
  let flare_angle := pr.sinA (pr.atan2A uv.y uv.x + time * (0.5 : ℚ))
  let flare_distance := dist_to_center + flare_angle * 0.1
  let flare_noise := noise pr.sinA (uv * (15.0 : ℚ) + ⟨time * 0.8, 0, 0⟩)
  let color := if flare_noise > 0.8 ∧ flare_distance > 0.85 then
      let flare_intensity := (flare_noise - 0.8) * 5.0
      lerpV color ⟨1.6, 0.8, 0.2⟩ (flare_intensity * (0.5 : ℚ))
    else color
  let color := if dist_to_center > 0.8 then
      let corona_factor := pr.powA ((dist_to_center - 0.8) / 0.2) 0.3
      let corona_color : Vec3 := ⟨1.3, 0.7, 0.3⟩
      let corona_flicker := pr.sinA (time * 3.0 + uv.x * (10.0 : ℚ)) * 0.5 + 0.5
      lerpV color corona_color (corona_factor * corona_flicker * (0.4 : ℚ))
    else color
  let pulse := (pr.sinA (time * (1.2 : ℚ)) * 0.5 + 0.5) * 0.12 + 0.96
  let color := color * pulse
  let color := color * (1 + core_brightness * (0.8 : ℚ))
  clampV 2.0 color

/-- Shader source `shaders.rs::shade_rocky` (lines 145-215). -/
def shade_rocky (pr : Prims) (point : Vec3) (time : ℚ) : Vec3 :=
  let uv := normalizeV pr point
  let continent_freq : ℚ := 2.5
  let continent_noise := fbm pr.sinA (uv * continent_freq) 4 0.55 2.1
  let threshold : ℚ := 0.48
  let is_land := continent_noise > threshold
  let ocean_deep : Vec3 := ⟨0.02, 0.15, 0.35⟩
  let ocean_mid : Vec3 := ⟨0.08, 0.28, 0.55⟩
  let ocean_shallow : Vec3 := ⟨0.15, 0.45, 0.75⟩
  let land_beach : Vec3 := ⟨0.76, 0.70, 0.50⟩
  let land_grass : Vec3 := ⟨0.15, 0.52, 0.15⟩
  let land_forest : Vec3 := ⟨0.08, 0.35, 0.10⟩
  let land_mountain : Vec3 := ⟨0.45, 0.45, 0.47⟩
  let land_snow : Vec3 := ⟨0.92, 0.95, 0.98⟩
  let color :=
    if is_land then
      let elevation := (continent_noise - threshold) / (1 - threshold)
      let color :=
        if elevation < 0.1 then land_beach
        else if elevation < 0.4 then
          let color := land_grass
          let grass_detail := noise pr.sinA (uv * (20.0 : ℚ))
          lerpV color land_forest (grass_detail * (0.3 : ℚ))
        else if elevation < 0.7 then
          lerpV land_forest land_mountain ((elevation - 0.4) / 0.3)
        else
          lerpV land_mountain land_snow ((elevation - 0.7) / 0.3)
      let terrain_detail := fbm pr.sinA (uv * (15.0 : ℚ)) 2 0.5 2.0
      color * (0.85 + terrain_detail * (0.3 : ℚ))
    else
      let depth := 1 - continent_noise / threshold
      let color :=
        if depth < 0.3 then ocean_shallow
        else if depth < 0.7 then ocean_mid
        else ocean_deep
      let wave_pattern := fbm pr.sinA (uv * (25.0 : ℚ) + ⟨time * 0.5, time * 0.3, 0⟩) 2 0.6 2.0
      lerpV color ocean_shallow (wave_pattern * (0.15 : ℚ))
  let cloud_freq : ℚ := 6.0
  let cloud_pattern := fbm pr.sinA (uv * cloud_freq + ⟨time * 0.15, 0, 0⟩) 3 0.5 2.0
  let color := if cloud_pattern > 0.62 then
      let cloud_density := (cloud_pattern - 0.62) * 2.5
      let cloud_color : Vec3 := ⟨0.95, 0.95, 1.0⟩
      lerpV color cloud_color (min cloud_density 0.85)
    else color
  clampV 1.0 color

/-- Shader source `shaders.rs::shade_gas_giant` (lines 217-274). -/
def shade_gas_giant (pr : Prims) (point : Vec3) (time : ℚ) : Vec3 :=
  let uv := normalizeV pr point
  let band_freq : ℚ := 10.0
  let band_turbulence := fbm pr.sinA (uv * (18.0 : ℚ) + ⟨time * 0.25, 0, 0⟩) 3 0.6 2.0
  let band_position := uv.y * band_freq + band_turbulence * 1.5
  let bands := (pr.sinA band_position + 1) * 0.5
  let color1 : Vec3 := ⟨0.85, 0.75, 0.55⟩
  let color2 : Vec3 := ⟨0.72, 0.58, 0.38⟩
  let color3 : Vec3 := ⟨0.58, 0.42, 0.25⟩
  let color4 : Vec3 := ⟨0.45, 0.30, 0.18⟩
  let color :=
    if bands < 0.25 then lerpV color1 color2 (bands * (4.0 : ℚ))
    else if bands < 0.5 then lerpV color2 color3 ((bands - 0.25) * (4.0 : ℚ))
    else if bands < 0.75 then lerpV color3 color4 ((bands - 0.5) * (4.0 : ℚ))
    else lerpV color4 color1 ((bands - 0.75) * (4.0 : ℚ))
  let turbulence_detail := fbm pr.sinA (uv * (30.0 : ℚ) + ⟨time * 0.4, 0, 0⟩) 2 0.5 2.0
  let color := color * (0.88 + turbulence_detail * (0.24 : ℚ))
  let vortex_pattern := noise pr.sinA (uv * (22.0 : ℚ) + ⟨time * 0.35, time * 0.2, 0⟩)
  let color := if vortex_pattern > 0.7 then
      let vortex_intensity := (vortex_pattern - 0.7) * 3.0
      lerpV color ⟨0.95, 0.85, 0.7⟩ (vortex_intensity * (0.25 : ℚ))
    else color
  let storm_center : Vec3 := ⟨0.0, -0.35, 0.0⟩
  let dist_to_storm := magnitudeV pr (uv - storm_center)
  let color := if dist_to_storm < 0.28 then
      let storm_factor := 1 - dist_to_storm / 0.28
      let storm_swirl := fbm pr.sinA ((uv - storm_center) * (15.0 : ℚ) + ⟨time * 0.8, 0, 0⟩) 3 0.6 2.0
      let storm_color_center : Vec3 := ⟨0.95, 0.25, 0.12⟩
      let storm_color_edge : Vec3 := ⟨0.88, 0.45, 0.28⟩
      let storm_color := lerpV storm_color_center storm_color_edge storm_swirl
      lerpV color storm_color (pr.powA storm_factor 2.5 * (0.75 : ℚ))
    else color
  clampV 1.0 color

/-- Shader source `shaders.rs::shade_spaceship` (lines 276-279): uniform gray, no
shading computation. -/
def shade_spaceship (pr : Prims) (point : Vec3) (time : ℚ) : Vec3 :=
  ⟨0.5, 0.5, 0.5⟩

/-- Shader source `shaders.rs::shade_ice_planet` (lines 281-334). -/
def shade_ice_planet (pr : Prims) (point : Vec3) (time : ℚ) : Vec3 :=
  let uv := normalizeV pr point
  let ice_base := fbm pr.sinA (uv * (4.0 : ℚ) + ⟨time * 0.03, 0, 0⟩) 4 0.55 2.0
  let ice_bright : Vec3 := ⟨0.92, 0.95, 1.0⟩
  let ice_normal : Vec3 := ⟨0.75, 0.85, 0.95⟩
  let ice_dark : Vec3 := ⟨0.55, 0.65, 0.80⟩
  let ice_crack : Vec3 := ⟨0.25, 0.35, 0.55⟩
  let color :=
    if ice_base > 0.7 then ice_bright
    else if ice_base > 0.45 then lerpV ice_normal ice_bright ((ice_base - 0.45) / 0.25)
    else if ice_base > 0.25 then lerpV ice_dark ice_normal ((ice_base - 0.25) / 0.2)
    else lerpV ice_crack ice_dark (ice_base / 0.25)
  let snow_pattern := fbm pr.sinA (uv * (12.0 : ℚ)) 2 0.6 2.0
  let color := if snow_pattern > 0.65 then
      let snow_intensity := (snow_pattern - 0.65) * 2.8
      lerpV color ⟨0.98, 0.99, 1.0⟩ (min snow_intensity 0.7)
    else color
  let crack_detail := fbm pr.sinA (uv * (18.0 : ℚ) + ⟨time * 0.05, 0, 0⟩) 2 0.5 2.0
  let color := if crack_detail < 0.25 then
      let crack_depth := 1 - crack_detail / 0.25
      lerpV color ⟨0.15, 0.25, 0.45⟩ (crack_depth * (0.6 : ℚ))
    else color
  let polar_factor := |uv.y|
  let color := if polar_factor > 0.7 then
      let polar_intensity := (polar_factor - 0.7) / 0.3
      lerpV color ⟨0.98, 0.99, 1.0⟩ (polar_intensity * (0.5 : ℚ))
    else color
  let crystal_noise := noise pr.sinA (uv * (35.0 : ℚ) + ⟨0, time * 0.1, 0⟩)
  let color := if crystal_noise > 0.82 then
      let sparkle := (crystal_noise - 0.82) * 5.0
      lerpV color ⟨1.0, 1.0, 1.0⟩ (min sparkle 0.4)
    else color
  clampV 1.0 color

/-- Shader source `shaders.rs::shade_desert_planet` (lines 336-353). -/
def shade_desert_planet (pr : Prims) (point : Vec3) (time : ℚ) : Vec3 :=
  let uv := normalizeV pr point
  let base_freq : ℚ := 4.0
  let n := fbm pr.sinA (uv * base_freq + ⟨time * 0.02, 0, 0⟩) 2 0.6 2.0
  let sand_light : Vec3 := ⟨0.9, 0.7, 0.3⟩
  let sand_dark : Vec3 := ⟨0.6, 0.4, 0.1⟩
  let color := lerpV sand_dark sand_light (pr.powA n 0.8)
  let dunes := pr.sinA (uv.y * 10.0 + noise pr.sinA (uv * (6.0 : ℚ)) * (2.0 : ℚ)) * 0.5 + 0.5
  let color := lerpV color ⟨0.95, 0.8, 0.4⟩ (dunes * (0.3 : ℚ))
  clampV 1.0 color

/-- Shader source `shaders.rs::shade_volcanic_planet` (lines 355-429). -/
def shade_volcanic_planet (pr : Prims) (point : Vec3) (time : ℚ) : Vec3 :=
  let uv := normalizeV pr point
  let terrain := fbm pr.sinA (uv * (3.5 : ℚ)) 4 0.55 2.0
  let rock_dark : Vec3 := ⟨0.12, 0.10, 0.08⟩
  let rock_normal : Vec3 := ⟨0.25, 0.20, 0.15⟩
  let rock_hot : Vec3 := ⟨0.45, 0.25, 0.15⟩
  let lava_dark : Vec3 := ⟨0.8, 0.25, 0.05⟩
  let lava_bright : Vec3 := ⟨1.2, 0.45, 0.0⟩
  let lava_core : Vec3 := ⟨1.5, 0.8, 0.1⟩
  let threshold : ℚ := 0.42
  let color :=
    if terrain > threshold then
      let lava_intensity := (terrain - threshold) / (1 - threshold)
      let lava_flow := fbm pr.sinA (uv * (8.0 : ℚ) + ⟨time * 0.5, time * 0.3, 0⟩) 3 0.6 2.0
      let color :=
        if lava_intensity > 0.7 then lerpV lava_bright lava_core ((lava_intensity - 0.7) / 0.3)
        else if lava_intensity > 0.4 then lerpV lava_dark lava_bright ((lava_intensity - 0.4) / 0.3)
        else lerpV rock_hot lava_dark (lava_intensity / 0.4)
      let pulse := pr.sinA (time * 2.5 + uv.x * 8.0 + uv.y * (6.0 : ℚ)) * 0.5 + 0.5
      let pulse_color : Vec3 := ⟨1.4, 0.6, 0.05⟩
      let color := lerpV color pulse_color (pulse * lava_intensity * (0.35 : ℚ))
      color * (0.85 + lava_flow * (0.3 : ℚ))
    else
      let color :=
        if terrain > 0.25 then lerpV rock_normal rock_hot ((terrain - 0.25) / 0.17)
        else lerpV rock_dark rock_normal (terrain / 0.25)
      let rock_detail := fbm pr.sinA (uv * (15.0 : ℚ)) 2 0.5 2.0
      let color := color * (0.8 + rock_detail * (0.4 : ℚ))
      let crack_pattern := noise pr.sinA (uv * (20.0 : ℚ) + ⟨time * 0.2, 0, 0⟩)
      if crack_pattern < 0.15 then
        let crack_glow := (0.15 - crack_pattern) * 6.0
        lerpV color ⟨1.0, 0.35, 0.0⟩ (min crack_glow 0.5)
      else color
  let ash_pattern := noise pr.sinA (uv * (25.0 : ℚ) + ⟨time * 0.4, time * 0.6, 0⟩)
  let color := if ash_pattern > 0.78 then
      let ash_density := (ash_pattern - 0.78) * 4.0
      lerpV color ⟨0.35, 0.30, 0.28⟩ (min ash_density 0.3)
    else color
  clampV 1.5 color

/-- Shader source `shaders.rs::shade_ocean_planet` (lines 431-451). -/
def shade_ocean_planet (pr : Prims) (point : Vec3) (time : ℚ) : Vec3 :=
  let uv := normalizeV pr point
  let wave_freq : ℚ := 15.0
  let wave_speed : ℚ := 0.5
  let waves := fbm pr.sinA (uv * wave_freq + ⟨time * wave_speed, time * wave_speed * 0.5, 0⟩) 3 0.6 2.0
  let deep_ocean : Vec3 := ⟨0.0, 0.2, 0.5⟩
  let shallow_ocean : Vec3 := ⟨0.1, 0.5, 0.8⟩
  let foam : Vec3 := ⟨0.7, 0.9, 1.0⟩
  let color := lerpV deep_ocean shallow_ocean waves
  let color := if waves > 0.7 then lerpV color foam ((waves - 0.7) * (3.0 : ℚ)) else color
  clampV 1.0 color

/-- Shader source `shaders.rs::shade_purple_planet` (lines 453-473). -/
def shade_purple_planet (pr : Prims) (point : Vec3) (time : ℚ) : Vec3 :=
  let uv := normalizeV pr point
  let crystal_freq : ℚ := 8.0
  let n := fbm pr.sinA (uv * crystal_freq + ⟨0, time * 0.1, 0⟩) 4 0.5 2.5
  let dark_purple : Vec3 := ⟨0.3, 0.1, 0.5⟩
  let bright_purple : Vec3 := ⟨0.7, 0.2, 0.9⟩
  let crystal_color : Vec3 := ⟨0.9, 0.5, 1.0⟩
  let color := lerpV dark_purple bright_purple n
  let crystal_noise := noise pr.sinA (uv * (20.0 : ℚ))
  let color := if crystal_noise > 0.75 then
      lerpV color crystal_color ((crystal_noise - 0.75) * (4.0 : ℚ))
    else color
  clampV 1.0 color

/-- Shader source `shaders.rs::shade_ringed_planet` (lines 475-495). -/
def shade_ringed_planet (pr : Prims) (point : Vec3) (time : ℚ) : Vec3 :=
  let uv := normalizeV pr point
  let base_freq : ℚ := 5.0
  let n := fbm pr.sinA (uv * base_freq + ⟨time * 0.15, 0, 0⟩) 3 0.5 2.0
  let turquoise_dark : Vec3 := ⟨0.1, 0.4, 0.5⟩
  let turquoise_light : Vec3 := ⟨0.3, 0.8, 0.9⟩
  let white_clouds : Vec3 := ⟨0.9, 0.95, 1.0⟩
  let color := lerpV turquoise_dark turquoise_light n
  let cloud_noise := fbm pr.sinA (uv * (10.0 : ℚ) + ⟨time * 0.2, 0, 0⟩) 2 0.6 2.0
  let color := if cloud_noise > 0.6 then
      lerpV color white_clouds ((cloud_noise - 0.6) * (2.5 : ℚ))
    else color
  clampV 1.0 color

/-- Shader source `shaders.rs::shade_starfield` (lines 497-500): black. -/
def shade_starfield (pr : Prims) (point : Vec3) (time : ℚ) : Vec3 :=
  ⟨0.0, 0.0, 0.0⟩

/-! ## Vertex transform stage: `src/shaders.rs` lines 5-28 -/

/-- 4x4 matrix product (nalgebra `Mat4 * Mat4`), row times column. -/
def mul4 (a b : Mat4) : Mat4 :=
  ⟨a.m00 * b.m00 + a.m01 * b.m10 + a.m02 * b.m20 + a.m03 * b.m30,
   a.m00 * b.m01 + a.m01 * b.m11 + a.m02 * b.m21 + a.m03 * b.m31,
   a.m00 * b.m02 + a.m01 * b.m12 + a.m02 * b.m22 + a.m03 * b.m32,
   a.m00 * b.m03 + a.m01 * b.m13 + a.m02 * b.m23 + a.m03 * b.m33,
   a.m10 * b.m00 + a.m11 * b.m10 + a.m12 * b.m20 + a.m13 * b.m30,
   a.m10 * b.m01 + a.m11 * b.m11 + a.m12 * b.m21 + a.m13 * b.m31,
   a.m10 * b.m02 + a.m11 * b.m12 + a.m12 * b.m22 + a.m13 * b.m32,
   a.m10 * b.m03 + a.m11 * b.m13 + a.m12 * b.m23 + a.m13 * b.m33,
   a.m20 * b.m00 + a.m21 * b.m10 + a.m22 * b.m20 + a.m23 * b.m30,
   a.m20 * b.m01 + a.m21 * b.m11 + a.m22 * b.m21 + a.m23 * b.m31,
   a.m20 * b.m02 + a.m21 * b.m12 + a.m22 * b.m22 + a.m23 * b.m32,
   a.m20 * b.m03 + a.m21 * b.m13 + a.m22 * b.m23 + a.m23 * b.m33,
   a.m30 * b.m00 + a.m31 * b.m10 + a.m32 * b.m20 + a.m33 * b.m30,
   a.m30 * b.m01 + a.m31 * b.m11 + a.m32 * b.m21 + a.m33 * b.m31,
   a.m30 * b.m02 + a.m31 * b.m12 + a.m32 * b.m22 + a.m33 * b.m32,
   a.m30 * b.m03 + a.m31 * b.m13 + a.m32 * b.m23 + a.m33 * b.m33⟩

/-- Matrix-vector product (nalgebra `Mat4 * Vec4`). -/
def mulVec4 (m : Mat4) (v : Vec4) : Vec4 :=
  ⟨m.m00 * v.x + m.m01 * v.y + m.m02 * v.z + m.m03 * v.w,
   m.m10 * v.x + m.m11 * v.y + m.m12 * v.z + m.m13 * v.w,
   m.m20 * v.x + m.m21 * v.y + m.m22 * v.z + m.m23 * v.w,
   m.m30 * v.x + m.m31 * v.y + m.m32 * v.z + m.m33 * v.w⟩

/-- The 3x3 built in `shaders.rs` lines 12-16 by `Mat3::from_columns`
of the `xyz` of the first three columns of the model matrix: the
upper-left 3x3 submatrix. -/
def upperLeft3 (m : Mat4) : Mat3 :=
  ⟨m.m00, m.m01, m.m02, m.m10, m.m11, m.m12, m.m20, m.m21, m.m22⟩

/-- 3x3 transpose (nalgebra `transpose`). -/
def transpose3 (m : Mat3) : Mat3 :=
  ⟨m.m00, m.m10, m.m20, m.m01, m.m11, m.m21, m.m02, m.m12, m.m22⟩

/-- 3x3 determinant by cofactor expansion along the first row, as
nalgebra computes it. -/
def det3 (m : Mat3) : ℚ :=
  m.m00 * (m.m11 * m.m22 - m.m12 * m.m21) -
    m.m01 * (m.m10 * m.m22 - m.m12 * m.m20) +
    m.m02 * (m.m10 * m.m21 - m.m11 * m.m20)

/-- The 3x3 identity (nalgebra `Mat3::identity`). -/
def identity3 : Mat3 := ⟨1, 0, 0, 0, 1, 0, 0, 0, 1⟩

/-- nalgebra `Matrix3::try_inverse`: `none` when the determinant is
zero, otherwise the adjugate divided by the determinant. -/
def tryInverse3 (m : Mat3) : Option Mat3 :=
  if det3 m = 0 then none
  else some
    ⟨(m.m11 * m.m22 - m.m12 * m.m21) / det3 m,
     (m.m02 * m.m21 - m.m01 * m.m22) / det3 m,
     (m.m01 * m.m12 - m.m02 * m.m11) / det3 m,
     (m.m12 * m.m20 - m.m10 * m.m22) / det3 m,
     (m.m00 * m.m22 - m.m02 * m.m20) / det3 m,
     (m.m02 * m.m10 - m.m00 * m.m12) / det3 m,
     (m.m10 * m.m21 - m.m11 * m.m20) / det3 m,
     (m.m01 * m.m20 - m.m00 * m.m21) / det3 m,
     (m.m00 * m.m11 - m.m01 * m.m10) / det3 m⟩

/-- 3x3 matrix applied to a `Vec3`. -/
def mulMat3Vec3 (m : Mat3) (v : Vec3) : Vec3 :=
  ⟨m.m00 * v.x + m.m01 * v.y + m.m02 * v.z,
   m.m10 * v.x + m.m11 * v.y + m.m12 * v.z,
   m.m20 * v.x + m.m21 * v.y + m.m22 * v.z⟩

/-- Shader source `shaders.rs::vertex_shader` (lines 5-28): full
projection-view-model transform of the position (the source evaluates
`P * V * M * position` left to right), inverse-transpose-model
transform of the normal with identity fallback on a singular matrix
(`unwrap_or_else(Mat3::identity)`), then normalization. The square root
inside `normalize` is a `Prims` parameter. -/
def vertex_shader (pr : Prims) (vertex : Vertex) (uniforms : Uniforms) : Vertex :=
  let position : Vec4 := ⟨vertex.position.x, vertex.position.y, vertex.position.z, 1.0⟩
  let transformed :=
    mulVec4 (mul4 (mul4 uniforms.projection_matrix uniforms.view_matrix) uniforms.model_matrix)
      position
  let model_mat3 := upperLeft3 uniforms.model_matrix
  let normal_matrix := (tryInverse3 (transpose3 model_mat3)).getD identity3
  let transformed_normal := normalizeV pr (mulMat3Vec3 normal_matrix vertex.normal)
  { position := vertex.position
    normal := vertex.normal
    tex_coords := vertex.tex_coords
    color := vertex.color
    transformed_position := transformed
    transformed_normal := transformed_normal }

/-- The normal matrix as the spec words it:
`inverse(transpose(upperLeft3x3(Model)))`, with the identity fallback
when that matrix is singular. -/
def specNormalMatrix (m : Mat4) : Mat3 :=
  (tryInverse3 (transpose3 (upperLeft3 m))).getD identity3

/-- C8: the vertex transform returns a new vertex whose clip-space
position is `Projection · View · Model · [localPosition, 1]` and whose
transformed normal is
`normalize(inverse(transpose(upperLeft3x3(Model))) · localNormal)`;
when the upper-left 3x3 model submatrix is singular the normal matrix
used is the identity. The function is total — no failure is raised. -/
theorem C8_vertex_transform (pr : Prims) (v : Vertex) (u : Uniforms) :
    (vertex_shader pr v u).transformed_position =
      mulVec4 u.projection_matrix (mulVec4 u.view_matrix (mulVec4 u.model_matrix
        ⟨v.position.x, v.position.y, v.position.z, 1⟩)) ∧
    (vertex_shader pr v u).transformed_normal =
      normalizeV pr (mulMat3Vec3 (specNormalMatrix u.model_matrix) v.normal) ∧
    (det3 (transpose3 (upperLeft3 u.model_matrix)) = 0 →
      specNormalMatrix u.model_matrix = identity3) ∧
    (vertex_shader pr v u).position = v.position ∧
    (vertex_shader pr v u).normal = v.normal := by
  refine ⟨?_, rfl, ?_, rfl, rfl⟩
  · apply Vec4.ext <;> simp only [vertex_shader, mul4, mulVec4] <;> ring
  · intro h
    unfold specNormalMatrix tryInverse3
    rw [if_pos h]
    rfl

/-- A concrete primitives bundle (all transcendentals constantly zero)
for instantiating theorems. -/
def prZero : Prims := ⟨fun _ => 0, fun _ => 0, fun _ _ => 0, fun _ _ => 0⟩

/-- C8, witness: the vertex transform claim instantiated at a concrete
vertex and the all-zero uniforms, whose singular model matrix exercises
the identity fallback. -/
theorem C8_vertex_transform_witness :
    (vertex_shader prZero cv1 uZero).transformed_position =
      mulVec4 uZero.projection_matrix (mulVec4 uZero.view_matrix (mulVec4 uZero.model_matrix
        ⟨cv1.position.x, cv1.position.y, cv1.position.z, 1⟩)) ∧
    (vertex_shader prZero cv1 uZero).transformed_normal =
      normalizeV prZero (mulMat3Vec3 (specNormalMatrix uZero.model_matrix) cv1.normal) ∧
    (det3 (transpose3 (upperLeft3 uZero.model_matrix)) = 0 →
      specNormalMatrix uZero.model_matrix = identity3) ∧
    (vertex_shader prZero cv1 uZero).position = cv1.position ∧
    (vertex_shader prZero cv1 uZero).normal = cv1.normal :=
  C8_vertex_transform prZero cv1 uZero

/-- Every channel of `v` lies within `[lo, hi]`. -/
def inRange (lo hi : ℚ) (v : Vec3) : Prop :=
  lo ≤ v.x ∧ v.x ≤ hi ∧ lo ≤ v.y ∧ v.y ≤ hi ∧ lo ≤ v.z ∧ v.z ≤ hi

/-- The final clamp forces every channel into `[0, hi]`. -/
theorem clampV_inRange (hi : ℚ) (hhi : 0 ≤ hi) (v : Vec3) : inRange 0 hi (clampV hi v) :=
  ⟨le_min (le_max_right _ _) hhi, min_le_right _ _,
   le_min (le_max_right _ _) hhi, min_le_right _ _,
   le_min (le_max_right _ _) hhi, min_le_right _ _⟩

/-- C2: for every choice of transcendental primitives, every input
surface vector (the zero vector included — `normalizeV` then divides by
whatever the square-root model returns, division by zero giving the
junk value zero) and every time, each material shader returns a color
with every channel inside its documented clamp range: `[0,1]` for the
rocky, gas giant, spaceship, ice, desert, ocean, purple and ringed
shaders, `[0,1.5]` for the volcanic shader and `[0,2]` for the star
shader; in particular `shade_star` at the normalized `(0,0,1)` and time
`0`. In the exact `ℚ` model every value is finite and there is no NaN;
in `f32` the same clamp pattern `x.max(0.0).min(hi)` maps NaN to `0.0`
because Rust's `max`/`min` ignore a NaN argument. -/
theorem C2_shader_clamp (pr : Prims) (p : Vec3) (t : ℚ) :
    inRange 0 2.0 (shade_star pr p t) ∧
    inRange 0 1.0 (shade_rocky pr p t) ∧
    inRange 0 1.0 (shade_gas_giant pr p t) ∧
    inRange 0 1.0 (shade_spaceship pr p t) ∧
    inRange 0 1.0 (shade_ice_planet pr p t) ∧
    inRange 0 1.0 (shade_desert_planet pr p t) ∧
    inRange 0 1.5 (shade_volcanic_planet pr p t) ∧
    inRange 0 1.0 (shade_ocean_planet pr p t) ∧
    inRange 0 1.0 (shade_purple_planet pr p t) ∧
    inRange 0 1.0 (shade_ringed_planet pr p t) ∧
    inRange 0 2.0 (shade_star pr (normalizeV pr ⟨0, 0, 1⟩) 0) :=
  ⟨clampV_inRange 2.0 (by norm_num) _,
   clampV_inRange 1.0 (by norm_num) _,
   clampV_inRange 1.0 (by norm_num) _,
   by refine ⟨?_, ?_, ?_, ?_, ?_, ?_⟩ <;> norm_num [shade_spaceship],
   clampV_inRange 1.0 (by norm_num) _,
   clampV_inRange 1.0 (by norm_num) _,
   clampV_inRange 1.5 (by norm_num) _,
   clampV_inRange 1.0 (by norm_num) _,
   clampV_inRange 1.0 (by norm_num) _,
   clampV_inRange 1.0 (by norm_num) _,
   clampV_inRange 2.0 (by norm_num) _⟩

/-! ## Framebuffer (spec section 4.6) -/

/-- Framebuffer state. Modelled from the spec: `framebuffer.rs` is not
in `src/`; per spec sections 3 and 4.6 it carries a width×height
packed-RGB color buffer, a parallel per-pixel depth buffer initialized
to `+∞` (modelled as `WithTop ℚ` with `⊤` for `+∞`), a background
color used by `clear`, and a scalar current-color register. The buffers
are modelled as functions indexed row first (`depthBuffer[y][x]`). -/
structure Framebuffer where
  width : ℕ
  height : ℕ
  colorBuffer : ℕ → ℕ → ℕ
  depthBuffer : ℕ → ℕ → WithTop ℚ
  background : ℕ
  currentColor : ℕ

/-- Modelled from the spec: `clear()` resets every pixel to the
background color and every depth cell to `+∞`. -/
def Framebuffer.clear (fb : Framebuffer) : Framebuffer :=
  { fb with colorBuffer := fun _ _ => fb.background, depthBuffer := fun _ _ => ⊤ }

/-- Modelled from the spec: `set_current_color(c)` sets the scalar
register consulted by `point`. -/
def Framebuffer.setCurrentColor (fb : Framebuffer) (c : ℕ) : Framebuffer :=
  { fb with currentColor := c }

/-- Modelled from the spec: `point(x, y, depth)`: if
`depth < depthBuffer[y][x]` (strict less-than), write the current color
into the color buffer at `(x,y)` and set `depthBuffer[y][x] = depth`;
otherwise leave both buffers unchanged. -/
def Framebuffer.point (fb : Framebuffer) (x y : ℕ) (depth : ℚ) : Framebuffer :=
  if (depth : WithTop ℚ) < fb.depthBuffer y x then
    { fb with
      colorBuffer := fun j i => if j = y ∧ i = x then fb.currentColor else fb.colorBuffer j i,
      depthBuffer := fun j i => if j = y ∧ i = x then (depth : WithTop ℚ) else fb.depthBuffer j i }
  else fb

/-- Drawing one shaded fragment as `main.rs` lines 301-302 do: set the
current color, then depth-test through `point`. -/
def drawFrag (fb : Framebuffer) (x y : ℕ) (c : ℕ) (depth : ℚ) : Framebuffer :=
  (fb.setCurrentColor c).point x y depth

theorem point_colorBuffer_at (fb : Framebuffer) (x y : ℕ) (d : ℚ) :
    (fb.point x y d).colorBuffer y x =
      if (d : WithTop ℚ) < fb.depthBuffer y x then fb.currentColor
      else fb.colorBuffer y x := by
  unfold Framebuffer.point
  split <;> simp_all

theorem point_depthBuffer_at (fb : Framebuffer) (x y : ℕ) (d : ℚ) :
    (fb.point x y d).depthBuffer y x =
      if (d : WithTop ℚ) < fb.depthBuffer y x then (d : WithTop ℚ)
      else fb.depthBuffer y x := by
  unfold Framebuffer.point
  split <;> simp_all

theorem point_currentColor (fb : Framebuffer) (x y : ℕ) (d : ℚ) :
    (fb.point x y d).currentColor = fb.currentColor := by
  unfold Framebuffer.point
  split <;> rfl

theorem setCurrentColor_colorBuffer (fb : Framebuffer) (c : ℕ) :
    (fb.setCurrentColor c).colorBuffer = fb.colorBuffer := rfl

theorem setCurrentColor_depthBuffer (fb : Framebuffer) (c : ℕ) :
    (fb.setCurrentColor c).depthBuffer = fb.depthBuffer := rfl

theorem setCurrentColor_currentColor (fb : Framebuffer) (c : ℕ) :
    (fb.setCurrentColor c).currentColor = c := rfl

/-- C4: `point` writes color and depth exactly when the incoming depth
is strictly below the stored depth and leaves both buffers unchanged
otherwise (equality included); consequently, at any overlap pixel the
surviving color is that of the fragment with the smaller depth in
either draw order, and on an exact depth tie the first writer wins. -/
theorem C4_depth_test (fb : Framebuffer) (x y : ℕ) (hx : x < fb.width)
    (hy : y < fb.height) (d d1 d2 : ℚ) (c1 c2 : ℕ) :
    ((d : WithTop ℚ) < fb.depthBuffer y x →
      (fb.point x y d).colorBuffer y x = fb.currentColor ∧
      (fb.point x y d).depthBuffer y x = (d : WithTop ℚ)) ∧
    (¬ (d : WithTop ℚ) < fb.depthBuffer y x →
      (fb.point x y d).colorBuffer y x = fb.colorBuffer y x ∧
      (fb.point x y d).depthBuffer y x = fb.depthBuffer y x) ∧
    (d1 < d2 → (d1 : WithTop ℚ) < fb.depthBuffer y x →
      (drawFrag (drawFrag fb x y c1 d1) x y c2 d2).colorBuffer y x = c1 ∧
      (drawFrag (drawFrag fb x y c2 d2) x y c1 d1).colorBuffer y x = c1) ∧
    ((d1 : WithTop ℚ) < fb.depthBuffer y x →
      (drawFrag (drawFrag fb x y c1 d1) x y c2 d1).colorBuffer y x = c1) := by
  refine ⟨?_, ?_, ?_, ?_⟩
  · intro h
    rw [point_colorBuffer_at, point_depthBuffer_at, if_pos h, if_pos h]
    exact ⟨rfl, rfl⟩
  · intro h
    rw [point_colorBuffer_at, point_depthBuffer_at, if_neg h, if_neg h]
    exact ⟨rfl, rfl⟩
  · intro h12 h1
    constructor
    · unfold drawFrag
      rw [point_colorBuffer_at, setCurrentColor_depthBuffer, setCurrentColor_colorBuffer,
        point_depthBuffer_at, setCurrentColor_depthBuffer, if_pos h1]
      rw [if_neg (by rw [WithTop.coe_lt_coe]; exact not_lt.mpr h12.le)]
      rw [point_colorBuffer_at, setCurrentColor_depthBuffer, setCurrentColor_currentColor,
        if_pos h1]
    · unfold drawFrag
      rw [point_colorBuffer_at, setCurrentColor_depthBuffer, setCurrentColor_colorBuffer,
        point_depthBuffer_at, setCurrentColor_depthBuffer]
      split
      · rw [if_pos (by rw [WithTop.coe_lt_coe]; exact h12), setCurrentColor_currentColor]
      · rfl
  · intro h1
    unfold drawFrag
    rw [point_colorBuffer_at, setCurrentColor_depthBuffer, setCurrentColor_colorBuffer,
      point_depthBuffer_at, setCurrentColor_depthBuffer, if_pos h1]
    rw [if_neg (by rw [WithTop.coe_lt_coe]; exact lt_irrefl d1)]
    rw [point_colorBuffer_at, setCurrentColor_depthBuffer, setCurrentColor_currentColor,
      if_pos h1]

/-- A concrete one-pixel framebuffer, freshly cleared: depth `⊤`. -/
def fb0 : Framebuffer := ⟨1, 1, fun _ _ => 0, fun _ _ => ⊤, 0, 0⟩

/-- C4, witness: the depth-test claim instantiated on a one-pixel
framebuffer with depths `1/2`, `1/4 < 1/3` and colors `7`, `9`. -/
theorem C4_depth_test_witness :
    (((1/2 : ℚ) : WithTop ℚ) < fb0.depthBuffer 0 0 →
      (fb0.point 0 0 (1/2)).colorBuffer 0 0 = fb0.currentColor ∧
      (fb0.point 0 0 (1/2)).depthBuffer 0 0 = ((1/2 : ℚ) : WithTop ℚ)) ∧
    (¬ ((1/2 : ℚ) : WithTop ℚ) < fb0.depthBuffer 0 0 →
      (fb0.point 0 0 (1/2)).colorBuffer 0 0 = fb0.colorBuffer 0 0 ∧
      (fb0.point 0 0 (1/2)).depthBuffer 0 0 = fb0.depthBuffer 0 0) ∧
    ((1/4 : ℚ) < (1/3 : ℚ) → ((1/4 : ℚ) : WithTop ℚ) < fb0.depthBuffer 0 0 →
      (drawFrag (drawFrag fb0 0 0 7 (1/4)) 0 0 9 (1/3)).colorBuffer 0 0 = 7 ∧
      (drawFrag (drawFrag fb0 0 0 9 (1/3)) 0 0 7 (1/4)).colorBuffer 0 0 = 7) ∧
    (((1/4 : ℚ) : WithTop ℚ) < fb0.depthBuffer 0 0 →
      (drawFrag (drawFrag fb0 0 0 7 (1/4)) 0 0 9 (1/4)).colorBuffer 0 0 = 7) :=
  C4_depth_test fb0 0 0 (by decide) (by decide) (1/2) (1/4) (1/3) 7 9

end SpaceTravel
